import Mathlib

/-!
Verification development for the d365_odata query compilation and validation
engine (`src/d365_odata/`): expression AST (`ast.py`), input normalizers
(`flatten.py`), wire compiler (`compiler.py`), schema model (`metadata.py`),
validator (`validator.py`), target capability model (`targets.py`) and the
query builder/pipeline (`query.py`).

Python dynamic values are embedded as the inductive `LitValue`; dictionaries
become insertion-ordered association lists (Python dicts preserve insertion
order, and the case-insensitive fallbacks iterate in that order); exceptions
become `Except` with one error constructor per raise site.  Validation, which
in the source mutates AST nodes and query lists in place, is rendered
functionally: each validation function returns the rewritten value.

The scope of the embedding: `$expand` sub-queries, `set`-typed normalizer
inputs (stabilized by sorting in the source), float/datetime literal values,
and the function-call target are outside the modeled universe; no claim
touches them.
-/

namespace D365

/-- Python scalar values appearing as `Literal` payloads and flattener inputs.
Floats and datetimes (handled by `compile_literal`) are outside the modeled
universe. -/
inductive LitValue where
  | none
  | b (bool : Bool)
  | i (int : Int)
  | s (str : String)
  deriving DecidableEq, Repr

/-- Python `str(value)` for the modeled values. -/
def pyStr : LitValue → String
  | .none => "None"
  | .b true => "True"
  | .b false => "False"
  | .i n => toString n
  | .s str => str

/-- Python `==` between two modeled values.  Mirrors CPython semantics:
`bool` is an `int` subtype, so `True == 1` and `False == 0`. -/
def pyValEq : LitValue → LitValue → Bool
  | .none, .none => true
  | .b x, .b y => x == y
  | .i x, .i y => x == y
  | .s x, .s y => x == y
  | .b x, .i y => (if x then (1 : Int) else 0) == y
  | .i x, .b y => x == (if y then (1 : Int) else 0)
  | _, _ => false

/-- `isinstance(v, bool)`. -/
def LitValue.isBool : LitValue → Bool
  | .b _ => true
  | _ => false

/-- `isinstance(v, (int, float))` — true for `bool` too (subtype). -/
def LitValue.isNumeric : LitValue → Bool
  | .b _ => true
  | .i _ => true
  | _ => false

/-- `isinstance(v, str)`. -/
def LitValue.isStr : LitValue → Bool
  | .s _ => true
  | _ => false

/-! ### Python string helpers -/

/-- The characters removed by Python `str.strip()` (ASCII whitespace; the
model restricts strings to this whitespace set). -/
def isPyWs (c : Char) : Bool :=
  c = ' ' ∨ c = '\t' ∨ c = '\n' ∨ c = '\r' ∨ c = '\x0b' ∨ c = '\x0c'

/-- `str.strip()` on the character list. -/
def pyStripList (l : List Char) : List Char :=
  ((l.dropWhile isPyWs).reverse.dropWhile isPyWs).reverse

/-- Python `s.strip()`. -/
def pyStrip (s : String) : String :=
  String.mk (pyStripList s.toList)

/-- `str.split()` with no argument: split on whitespace runs, dropping
empty chunks. -/
def pySplitWs (s : String) : List String :=
  ((s.toList.splitOnP isPyWs).map String.mk).filter (· ≠ "")

/-- ASCII lowercase of one character. -/
def charLower (c : Char) : Char :=
  if 'A' ≤ c ∧ c ≤ 'Z' then Char.ofNat (c.toNat + 32) else c

/-- Python `s.lower()` (ASCII model). -/
def pyLower (s : String) : String := String.mk (s.toList.map charLower)

/-- `value.replace("'", "''")` — single-quote escaping used by
`compile_literal`. -/
def escapeQuotes (s : String) : String :=
  String.mk (s.toList.foldr (fun c acc => if c = '\'' then '\'' :: '\'' :: acc else c :: acc) [])

/-! ### Expression AST (`ast.py`)

The six comparison classes `Eq..Le` and the three string-predicate classes
`Contains/StartsWith/EndsWith` are all `_CoercingBinary` dataclasses holding
`left`/`right`; they are embedded as one `bin` node tagged with `BinOp`. -/

/-- The concrete `_CoercingBinary` subclasses. -/
inductive BinOp where
  | eq | ne | gt | ge | lt | le
  | containsOp | startsWithOp | endsWithOp
  deriving DecidableEq, Repr

/-- Expression AST nodes (`Expr` subclasses in `ast.py`). -/
inductive Expr where
  | prop (name : String)
  | lit (value : LitValue)
  | andE (terms : List Expr)
  | orE (terms : List Expr)
  | notE (operand : Expr)
  | bin (op : BinOp) (left right : Expr)
  | inE (left : Expr) (options : List Expr)

/-- `isinstance(x, Prop)`. -/
def Expr.isProp : Expr → Bool
  | .prop _ => true
  | _ => false

/-- `isinstance(x, Literal)`. -/
def Expr.isLit : Expr → Bool
  | .lit _ => true
  | _ => false

/-- A Python argument that is either an `Expr` node or a plain scalar;
used by the coercing constructors. -/
inductive PyArg where
  | ofExpr (e : Expr)
  | ofVal (v : LitValue)

/-- `_coerce_left_default`: Expr passes through, `str` becomes `Prop`,
everything else becomes `Literal`. -/
def coerceLeft : PyArg → Expr
  | .ofExpr e => e
  | .ofVal (.s str) => .prop str
  | .ofVal v => .lit v

/-- `_coerce_right_default`: Expr passes through, everything else becomes
`Literal`. -/
def coerceRight : PyArg → Expr
  | .ofExpr e => e
  | .ofVal v => .lit v

/-- `_CoercingBinary.__init__` for a given subclass tag. -/
def mkBin (op : BinOp) (l r : PyArg) : Expr :=
  .bin op (coerceLeft l) (coerceRight r)

/-- `And.__init__` term normalization: a term that is itself an `And` has its
terms spliced in, left to right (`flatten_exprs` over already-constructed
`Expr` arguments is the identity). -/
def mkAnd (ts : List Expr) : Expr :=
  .andE (ts.foldl (fun acc t =>
    match t with
    | .andE sub => acc ++ sub
    | _ => acc ++ [t]) [])

/-- `Or.__init__` term normalization, as `mkAnd`. -/
def mkOr (ts : List Expr) : Expr :=
  .orE (ts.foldl (fun acc t =>
    match t with
    | .orE sub => acc ++ sub
    | _ => acc ++ [t]) [])

/-! ### Normalizers (`flatten.py`) -/

/-- `OrderByItem` (`types.py`): `field` plus `desc` (`False` ⇒ asc). -/
structure OrderByItem where
  field : String
  desc : Bool := false
  deriving DecidableEq, Repr

/-- Errors raised by the flatteners: `TypeError` and `ValueError`. -/
inductive FErr where
  | typeErr
  | valueErr
  deriving DecidableEq, Repr

/-- Input universe of `flatten_exprs`: `None`, raw strings (rejected),
non-iterable atoms (the `Expr` arguments of the typed contract), and ordered
iterables (lists/tuples/generators). -/
inductive EIn where
  | enone
  | estr (s : String)
  | eatom (e : Expr)
  | eiter (xs : List EIn)

mutual

/-- The `walk` function of `flatten_exprs`, state-passing over the shared
`out` list: `None` is skipped, a string raises `TypeError`, a non-iterable is
appended, an iterable is recursed into. -/
def walkE1 : EIn → List Expr → Except FErr (List Expr)
  | .enone, acc => .ok acc
  | .estr _, _ => .error .typeErr
  | .eatom e, acc => .ok (acc ++ [e])
  | .eiter xs, acc => walkEL xs acc

/-- The iteration of `walk` over an item sequence. -/
def walkEL : List EIn → List Expr → Except FErr (List Expr)
  | [], acc => .ok acc
  | x :: rest, acc =>
    match walkE1 x acc with
    | .ok acc2 => walkEL rest acc2
    | .error e => .error e

end

/-- `flatten_exprs(*items)`. -/
def flattenExprs (items : List EIn) : Except FErr (List Expr) :=
  walkEL items []

/-- Input universe of `flatten_fields`: `None`, strings (atomic), ordered
iterables, and any other object (rejected with `TypeError`). -/
inductive FIn where
  | fnone
  | fstr (s : String)
  | fiter (xs : List FIn)
  | fatom

/-- `add_one` of `flatten_fields`: strip, drop empty, dedup on first
occurrence (the `seen` set always holds exactly the strings of `out`). -/
def addOneField (s : String) (out : List String) : List String :=
  let s2 := pyStrip s
  if s2 = "" then out
  else if s2 ∈ out then out
  else out ++ [s2]

mutual

/-- The `walk` function of `flatten_fields`, state-passing over `out`. -/
def walkF1 : FIn → List String → Except FErr (List String)
  | .fnone, out => .ok out
  | .fstr s, out => .ok (addOneField s out)
  | .fiter xs, out => walkFL xs out
  | .fatom, _ => .error .typeErr

/-- The iteration of `walk` over an item sequence. -/
def walkFL : List FIn → List String → Except FErr (List String)
  | [], out => .ok out
  | x :: rest, out =>
    match walkF1 x out with
    | .ok out2 => walkFL rest out2
    | .error e => .error e

end

/-- `flatten_fields(*items)`. -/
def flattenFields (items : List FIn) : Except FErr (List String) :=
  walkFL items []

/-- Input universe of `flatten_orderby`: `None`, strings, bools, pre-built
`OrderByItem` objects (which reach the trailing `TypeError`), and ordered
iterables covering both tuples and lists. -/
inductive OBVal where
  | onone
  | os (s : String)
  | ob (bool : Bool)
  | oitem (field : String) (desc : Bool)
  | oiter (xs : List OBVal)

/-- The orderby accumulator: the source keeps `order_map : field → desc` and
`order_sequence` (first-seen field order) and rebuilds the list at the end;
an insertion-ordered association list with in-place direction update models
the pair. -/
def obAdd (st : List (String × Bool)) (field : String) (desc : Bool) :
    List (String × Bool) :=
  let f := pyStrip field
  if f = "" then st
  else if st.any (·.1 = f) then
    st.map (fun p => if p.1 = f then (p.1, desc) else p)
  else st ++ [(f, desc)]

/-- One walk step for a string form: `"Name"`, `"Name asc"`, `"Name desc"`
(any other shape raises `ValueError`). -/
def obAddString (st : List (String × Bool)) (s : String) :
    Except FErr (List (String × Bool)) :=
  match pySplitWs (pyStrip s) with
  | [f] => .ok (obAdd st f false)
  | [f, d] =>
    if pyLower d = "asc" then .ok (obAdd st f false)
    else if pyLower d = "desc" then .ok (obAdd st f true)
    else .error .valueErr
  | _ => .error .valueErr

/-- The outcome of the `isinstance(x, (tuple, list)) and len(x) == 2 and
isinstance(x[0], str)` test of the orderby walk for an iterable. -/
inductive OBPair where
  | pairB (f : String) (d : Bool)
  | pairS (f d : String)
  | pairBad
  | notPair
  deriving DecidableEq, Repr

/-- Classify a tuple/list for the pair branch: `(field, bool)`,
`(field, str)`, a 2-tuple with a string head and an invalid direction, or
anything else (handled by the generic iterable recursion). -/
def classifyIter : List OBVal → OBPair
  | [.os f, .ob d] => .pairB f d
  | [.os f, .os d] => .pairS f d
  | [.os _, _] => .pairBad
  | _ => .notPair

mutual

/-- The `walk` function of `flatten_orderby`.  A 2-element tuple/list whose
first element is a string is treated as a `(field, direction)` pair (second
element a bool or an `"asc"`/`"desc"` string, otherwise `ValueError`); other
iterables are recursed into; bools and `OrderByItem` objects hit the trailing
`TypeError`. -/
def walkOB1 : OBVal → List (String × Bool) → Except FErr (List (String × Bool))
  | .onone, st => .ok st
  | .os s, st => obAddString st s
  | .oiter xs, st =>
    match classifyIter xs with
    | .pairB f d => .ok (obAdd st f d)
    | .pairS f d =>
      if pyLower d = "asc" then .ok (obAdd st f false)
      else if pyLower d = "desc" then .ok (obAdd st f true)
      else .error .valueErr
    | .pairBad => .error .valueErr
    | .notPair => walkOBL xs st
  | .ob _, _ => .error .typeErr
  | .oitem _ _, _ => .error .typeErr

/-- The iteration of `walk` over an item sequence. -/
def walkOBL : List OBVal → List (String × Bool) → Except FErr (List (String × Bool))
  | [], st => .ok st
  | x :: rest, st =>
    match walkOB1 x st with
    | .ok st2 => walkOBL rest st2
    | .error e => .error e

end

/-- `flatten_orderby(*items)`: walk, then rebuild the stable ordered list
with the final directions. -/
def flattenOrderby (items : List OBVal) : Except FErr (List OrderByItem) :=
  (walkOBL items []).map (fun st => st.map (fun p => ⟨p.1, p.2⟩))

/-! ### Wire compiler (`compiler.py`) -/

/-- `compile_literal`.  The branch order mirrors the source: `None`, the
`bool` check (which precedes the numeric check — `bool` is an `int` subtype,
so `LitValue.isNumeric` is true of bools as well), numbers, strings. -/
def compileLiteral (v : LitValue) : String :=
  if v = .none then "null"
  else if v.isBool then (if v = .b true then "true" else "false")
  else if v.isNumeric then pyStr v
  else if v.isStr then "'" ++ escapeQuotes (pyStr v) ++ "'"
  else "'" ++ escapeQuotes (pyStr v) ++ "'"

/-- Module-level `use_in_operator` flag (defaults to OR expansion). -/
def useInOperator : Bool := false

/-- The compiler keyword for a binary node. -/
def BinOp.keyword : BinOp → String
  | .eq => "eq" | .ne => "ne" | .gt => "gt" | .ge => "ge" | .lt => "lt" | .le => "le"
  | .containsOp => "contains" | .startsWithOp => "startswith" | .endsWithOp => "endswith"

mutual

/-- `compile_expr`: fully parenthesized logical/comparison rendering,
function-call rendering for the string predicates, `compile_in` for
membership. -/
def compileExpr : Expr → String
  | .prop name => name
  | .lit v => compileLiteral v
  | .andE ts => "(" ++ String.intercalate " and " (compileExprList ts) ++ ")"
  | .orE ts => "(" ++ String.intercalate " or " (compileExprList ts) ++ ")"
  | .notE e => "(not " ++ compileExpr e ++ ")"
  | .bin .containsOp l r => "contains(" ++ compileExpr l ++ "," ++ compileExpr r ++ ")"
  | .bin .startsWithOp l r => "startswith(" ++ compileExpr l ++ "," ++ compileExpr r ++ ")"
  | .bin .endsWithOp l r => "endswith(" ++ compileExpr l ++ "," ++ compileExpr r ++ ")"
  | .bin op l r => "(" ++ compileExpr l ++ " " ++ op.keyword ++ " " ++ compileExpr r ++ ")"
  | .inE l opts =>
    if opts.isEmpty then "(false)"
    else if useInOperator then
      "(" ++ compileExpr l ++ " in (" ++ String.intercalate "," (compileExprList opts) ++ "))"
    else
      "(" ++ String.intercalate " or "
        ((compileExprList opts).map (fun v => "(" ++ compileExpr l ++ " eq " ++ v ++ ")")) ++ ")"

/-- Pointwise compilation of a term list. -/
def compileExprList : List Expr → List String
  | [] => []
  | e :: es => compileExpr e :: compileExprList es

end

/-- `compile_orderby`: `"Name asc,CreatedAt desc"`. -/
def compileOrderby (items : List OrderByItem) : String :=
  String.intercalate ","
    (items.map (fun it => it.field ++ (if it.desc then " desc" else " asc")))

/-! ### GUID handling (`utilities.py`, backed by `uuid.UUID`) -/

/-- The cleanup performed by `uuid.UUID(hex=...)`: drop every occurrence of
`urn:` and `uuid:`, strip `{`/`}` from both ends, drop every hyphen.  The
occurrence removal is modeled for the canonical single-prefix forms. -/
def guidClean (s : String) : List Char :=
  let l := s.toList
  let l := if l.take 4 = "urn:".toList then l.drop 4 else l
  let l := if l.take 5 = "uuid:".toList then l.drop 5 else l
  let l := (l.dropWhile (fun c => c = '{' ∨ c = '}')).reverse
  let l := (l.dropWhile (fun c => c = '{' ∨ c = '}')).reverse
  l.filter (· ≠ '-')

/-- `_is_guid`: `UUID(str(value))` succeeds — 32 hex digits after cleanup
(the sign/underscore/whitespace oddities `int(x, 16)` tolerates lie outside
the model). -/
def isGuid (s : String) : Bool :=
  let h := guidClean s
  h.length = 32 ∧ h.all (fun c => c.isDigit ∨ ('a' ≤ c ∧ c ≤ 'f') ∨ ('A' ≤ c ∧ c ≤ 'F'))

/-- `_normalize_guid`: `str(UUID(str(value)))` — canonical lowercase
hyphenated 8-4-4-4-12 form. -/
def normalizeGuid (s : String) : String :=
  let h := (guidClean s).map charLower
  String.mk (h.take 8) ++ "-" ++ String.mk ((h.drop 8).take 4) ++ "-" ++
    String.mk ((h.drop 12).take 4) ++ "-" ++ String.mk ((h.drop 16).take 4) ++ "-" ++
    String.mk (h.drop 20)

/-! ### Schema model (`metadata.py`) -/

/-- The `type_element` classification computed at schema-compile time. -/
inductive TypeElem where
  | edm | enumType | entityType | entitySet | complexType
  deriving DecidableEq, Repr

/-- An attribute record as built by `EdmxMetadata.get_properties`:
`{api_name, type, full_type, is_collection, type_element}` (values may be
`None`). -/
structure Attribute where
  api_name : Option String
  type : Option String
  full_type : Option String
  is_collection : Bool := false
  type_element : Option TypeElem
  deriving DecidableEq, Repr

/-- A navigation-property record (the fields used by validation). -/
structure NavProp where
  partner : Option String := Option.none
  from_property : Option String := Option.none
  to_property : Option String := Option.none
  to_entity_type : Option String
  to_entity_is_collection : Bool := false
  deriving DecidableEq, Repr

/-- An enum definition: flags marker plus ordered `name → integer-string`
members. -/
structure EnumDef where
  enum_is_flags : Bool := false
  members : List (String × String)
  deriving DecidableEq, Repr

/-- An entity record as built by `_parse_edmx_file`. -/
structure Entity where
  primary_key : Option String := Option.none
  entity_set_name : Option String := Option.none
  attributes : List (String × Attribute) := []
  navigation_properties : List (String × NavProp) := []
  deriving DecidableEq, Repr

/-- `ServiceMetadata`: one schema's namespace/alias and its name-indexed
collections (complex types, unused by any claim, are omitted). -/
structure ServiceMetadata where
  schema_namespace : String
  schema_alias : String
  entity_sets : List (String × String)
  entities : List (String × Entity)
  enums : List (String × EnumDef)
  deriving Repr

/-- `_find_case_insensitive` over a dict: first entry whose key matches
case-insensitively, returning `(item, original_key)`. -/
def findCI (target : String) (items : List (String × α)) : Option (α × String) :=
  match items.find? (fun p => pyLower p.1 = pyLower target) with
  | some p => some (p.2, p.1)
  | Option.none => Option.none

/-- `ServiceMetadata.get_entity`: exact entity name, then exact entity-set
name, then case-insensitive entity-set name, then case-insensitive entity
name.  The walrus truthiness checks on string values are `≠ ""` guards. -/
def getEntity (md : ServiceMetadata) (name : String) : Option (Entity × String) :=
  match md.entities.find? (·.1 = name) with
  | some p => some (p.2, p.1)
  | Option.none =>
    let viaSet : Option (Entity × String) :=
      match md.entity_sets.find? (·.1 = name) with
      | some p =>
        if p.2 = "" then Option.none
        else (md.entities.find? (·.1 = p.2)).map (fun q => (q.2, q.1))
      | Option.none => Option.none
    match viaSet with
    | some r => some r
    | Option.none =>
      let viaSetCI : Option (Entity × String) :=
        match findCI name md.entity_sets with
        | some (ename, _) =>
          if ename = "" then Option.none
          else (md.entities.find? (·.1 = ename)).map (fun q => (q.2, q.1))
        | Option.none => Option.none
      match viaSetCI with
      | some r => some r
      | Option.none =>
        match findCI name md.entities with
        | some (e, en) => some (e, en)
        | Option.none => Option.none

/-- `_get_entity_prop("attributes", ...)` against a resolved entity: the
lookup short-circuits to nothing when the attribute dict is empty (falsy),
else exact key match, else case-insensitive match. -/
def getAttributeInEntity (e : Entity) (propName : String) : Option (Attribute × String) :=
  if e.attributes.isEmpty then Option.none
  else match e.attributes.find? (·.1 = propName) with
  | some p => some (p.2, p.1)
  | Option.none => findCI propName e.attributes

/-- `ServiceMetadata.get_attribute(name, entity_name=...)`. -/
def getAttribute (md : ServiceMetadata) (entityName propName : String) :
    Option (Attribute × String) :=
  match getEntity md entityName with
  | some (e, _) => getAttributeInEntity e propName
  | Option.none => Option.none

/-- `_get_entity_prop("navigation_properties", ...)` against a resolved
entity. -/
def getNavPropInEntity (e : Entity) (navName : String) : Option (NavProp × String) :=
  if e.navigation_properties.isEmpty then Option.none
  else match e.navigation_properties.find? (·.1 = navName) with
  | some p => some (p.2, p.1)
  | Option.none => findCI navName e.navigation_properties

/-- `ServiceMetadata.get_enum`: exact match, then case-insensitive. -/
def getEnum (md : ServiceMetadata) (name : String) : Option (EnumDef × String) :=
  match md.enums.find? (·.1 = name) with
  | some p => some (p.2, p.1)
  | Option.none =>
    match findCI name md.enums with
    | some (e, n) => some (e, n)
    | Option.none => Option.none

/-- The record returned by `ServiceMetadata.get_enum_info`. -/
structure EnumInfo where
  enum_path : String
  enum_member : String
  enum_value : String
  enum_is_flags : Bool
  deriving DecidableEq, Repr

/-- The member-name phase of `get_enum_info`: Python `target_member in
members` (true only for a string value that is literally a key), then
`_find_case_insensitive(str(target_member), members)` whose hit is kept only
when the stored value string is truthy (non-empty). -/
def enumMemberByName (members : List (String × String)) (v : LitValue) : Option String :=
  let exact : Option String :=
    match v with
    | .s m => if (members.find? (·.1 = m)).isSome then some m else Option.none
    | _ => Option.none
  match exact with
  | some m => some m
  | Option.none =>
    match findCI (pyStr v) members with
    | some (val, name) => if val ≠ "" then some name else Option.none
    | Option.none => Option.none

/-- The member-value phase: `list(members.values()).index(target_value)`
(Python `==`, so only a string value can match the stored strings), then the
same with `str(target_value)`. -/
def enumMemberByValue (members : List (String × String)) (v : LitValue) : Option String :=
  let direct : Option String :=
    match v with
    | .s m => (members.find? (·.2 = m)).map (·.1)
    | _ => Option.none
  match direct with
  | some n => some n
  | Option.none => (members.find? (·.2 = pyStr v)).map (·.1)

/-- `ServiceMetadata.get_enum_info(enum_name, enum_variable=v)`: resolve the
enum, try the member-name phase then the member-value phase, and return the
info record only when the resolved member's stored value is truthy
(`members.get(None)` and empty values yield no result). -/
def getEnumInfo (md : ServiceMetadata) (enumName : String) (v : LitValue) :
    Option EnumInfo :=
  match getEnum md enumName with
  | Option.none => Option.none
  | some (enum, actualName) =>
    let memberName : Option String :=
      match enumMemberByName enum.members v with
      | some n => some n
      | Option.none => enumMemberByValue enum.members v
    match memberName with
    | Option.none => Option.none
    | some n =>
      match enum.members.find? (·.1 = n) with
      | some p =>
        if p.2 ≠ "" then
          some ⟨md.schema_namespace ++ "." ++ actualName, n, p.2, enum.enum_is_flags⟩
        else Option.none
      | Option.none => Option.none

/-! ### Validator (`validator.py`)

One error constructor per raise site.  `attrAccessErr` models the Python
`AttributeError` hit when `.name`/`.value` is read off a node that is not a
`Prop`/`Literal`.  The in-place rewrites (`Prop._update_name`,
`Expr._rebuild`, `Not.inner_expr`) are called from `validator.py` but defined
nowhere under `src/`; the functional rewrites below are modelled from the
spec (validation rewrites the property to its canonical name, rewrites
GUID/enum literals, and `LogicalNot` recurses into its operand). -/

/-- Validator errors, one per raise site. -/
inductive VErr where
  /-- `TypeError("Expected the binary expression to be a prop and a literal")` -/
  | bothSidesSameKind
  /-- `TypeError(f"Binary expression is invalid: ...")` -/
  | invalidBinary
  /-- `TypeError(f"Unknown expression node: ...")` in `validate_expr` -/
  | unknownNode
  /-- `ValidationError` on a naked `Prop` filter root/term -/
  | nakedProp
  /-- `ValidationError` on a naked `Literal` filter root/term -/
  | nakedLiteral
  /-- `ValidationError(f"Attribute ... did not have a type.")` -/
  | attrTypeMissing
  /-- `ValidationLookupError` when `get_enum_info` finds no member -/
  | enumMemberNotFound
  /-- `ValidationLookupError` when the enum itself is unknown -/
  | enumNotFound
  /-- `ValidationLookupError` in `validate_prop` -/
  | propNotFound
  /-- Python `AttributeError` (`.name`/`.value` on a non-leaf node) -/
  | attrAccessErr
  deriving DecidableEq, Repr

/-- `_value_matches_edm`: `None` never matches; unknown EDM type names
(including a missing `full_type`) are considered valid with a warning. -/
def valueMatchesEdm (v : LitValue) (edmType : Option String) : Bool :=
  match v with
  | .none => false
  | _ =>
    match edmType with
    | some "Edm.String" => v.isStr
    | some "Edm.Boolean" => v.isBool
    | some t =>
      if t = "Edm.Int32" ∨ t = "Edm.Int16" ∨ t = "Edm.Int64" then
        v.isNumeric ∧ ¬ v.isBool
      else if t = "Edm.Decimal" ∨ t = "Edm.Double" ∨ t = "Edm.Single" then
        v.isNumeric ∧ ¬ v.isBool
      else if t = "Edm.Guid" then v.isStr ∧ isGuid (pyStr v)
      else true
    | Option.none => true

/-- `get_attribute_api_name(attr, name)`: a truthy `api_name` differing from
the found name wins (and marks a rename). -/
def attributeApiName (attr : Attribute) (name : String) : String × Bool :=
  match attr.api_name with
  | some api => if api ≠ "" ∧ name ≠ api then (api, true) else (name, false)
  | Option.none => (name, false)

/-- `validate_prop`: resolve the property against the attribute map and
return its canonical name (the source renames the `Prop` node in place via
`_update_name`). -/
def validateProp (md : ServiceMetadata) (entity : String) (propName : String) :
    Except VErr String :=
  match getAttribute md entity propName with
  | some (attr, aname) => .ok (attributeApiName attr aname).1
  | Option.none => .error .propNotFound

/-- The raw name `Prop(lit_expr.value)` receives in the GUID rewrite (the
value is a string whenever the rewrite can succeed). -/
def litAsPropName : LitValue → String
  | .s str => str
  | v => pyStr v

/-- `validate_enum`: resolve the attribute's enum, look the literal's value
up, and on success rebuild the node with the literal side replaced by the
fully-qualified token `Namespace.EnumName'Member'` (an unquoted `Prop`).
The property side is left as-is — the enum branch never canonicalizes it. -/
def validateEnum (md : ServiceMetadata) (op : BinOp) (left right : Expr)
    (propIsLeft : Bool) (attr : Attribute) : Except VErr Expr :=
  match attr.type with
  | Option.none => .error .attrTypeMissing
  | some t =>
    match getEnum md t with
    | some (_, enumName) =>
      let litSide := if propIsLeft then right else left
      match litSide with
      | .lit v =>
        match getEnumInfo md enumName v with
        | some info =>
          let token := Expr.prop (info.enum_path ++ "'" ++ info.enum_member ++ "'")
          .ok (if propIsLeft then .bin op left token else .bin op token right)
        | Option.none => .error .enumMemberNotFound
      | _ => .error .attrAccessErr
    | Option.none => .error .enumNotFound

/-- `validate_binary_expr`: reject both-`Prop` and both-`Literal`; resolve
the `Prop` side; dispatch on the attribute's `type_element` (`enum_type` or
`edm`, anything else falls through to `TypeError`); for `edm` check the
literal against the EDM family, canonicalize the property name, and for a
`Guid`-typed attribute rewrite the literal into an unquoted raw token. -/
def validateBinaryExpr (md : ServiceMetadata) (entity : String)
    (op : BinOp) (left right : Expr) : Except VErr Expr :=
  if left.isProp ∧ right.isProp then .error .bothSidesSameKind
  else if left.isLit ∧ right.isLit then .error .bothSidesSameKind
  else
    let propIsLeft := left.isProp
    let propSide := if propIsLeft then left else right
    match propSide with
    | .prop pname =>
      match getAttribute md entity pname with
      | some (attr, _) =>
        match attr.type_element with
        | some .enumType => validateEnum md op left right propIsLeft attr
        | some .edm =>
          let litSide := if propIsLeft then right else left
          match litSide with
          | .lit v =>
            let litOk := valueMatchesEdm v attr.full_type
            match validateProp md entity pname with
            | .ok finalName =>
              if litOk then
                let newProp := Expr.prop finalName
                let newLit : Expr :=
                  if attr.type = some "Guid" then .prop (litAsPropName v) else .lit v
                .ok (if propIsLeft then .bin op newProp newLit
                     else .bin op newLit newProp)
              else .error .invalidBinary
            | .error e => .error e
          | _ => .error .attrAccessErr
        | _ => .error .invalidBinary
      | Option.none => .error .invalidBinary
    | _ => .error .attrAccessErr

mutual

/-- `validate_expr`: naked leaves are rejected; `And`/`Or` recurse into every
term; the `_CoercingBinary`/`_StrictBinary` classes go through
`validate_binary_expr`; `Not` recurses into its operand; anything else —
including every `In_` membership node, which is none of the handled
classes — raises the unknown-node `TypeError`. -/
def validateExpr (md : ServiceMetadata) (entity : String) : Expr → Except VErr Expr
  | .prop _ => .error .nakedProp
  | .lit _ => .error .nakedLiteral
  | .andE ts =>
    match validateExprList md entity ts with
    | .ok ts2 => .ok (.andE ts2)
    | .error e => .error e
  | .orE ts =>
    match validateExprList md entity ts with
    | .ok ts2 => .ok (.orE ts2)
    | .error e => .error e
  | .bin op l r => validateBinaryExpr md entity op l r
  | .notE e =>
    match validateExpr md entity e with
    | .ok e2 => .ok (.notE e2)
    | .error err => .error err
  | .inE _ _ => .error .unknownNode

/-- Sequential validation of `And`/`Or` terms (the source loop stops at the
first raised error). -/
def validateExprList (md : ServiceMetadata) (entity : String) :
    List Expr → Except VErr (List Expr)
  | [] => .ok []
  | t :: rest =>
    match validateExpr md entity t with
    | .ok t2 =>
      match validateExprList md entity rest with
      | .ok rest2 => .ok (t2 :: rest2)
      | .error e => .error e
    | .error e => .error e

end

/-! ### Targets and capability model (`targets.py`, `types.py`) -/

/-- `QueryPart`: facet tags plus the two capability sentinels `__ANY__` and
`__NONE__`.  The `EXPAND` facet exists but expansion sub-queries are outside
the model, so it is never present. -/
inductive QueryPart where
  | anyPart | nonePart
  | selectP | filterP | orderbyP | skipP | topP | countP | expandP
  deriving DecidableEq, Repr

/-- `p.name` of the enum member, used in capability error messages. -/
def QueryPart.pyName : QueryPart → String
  | .anyPart => "__ANY__" | .nonePart => "__NONE__"
  | .selectP => "SELECT" | .filterP => "FILTER" | .orderbyP => "ORDERBY"
  | .skipP => "SKIP" | .topP => "TOP" | .countP => "COUNT" | .expandP => "EXPAND"

/-- Query targets.  `FromTarget` carries `entity_set`, optional record `id`,
optional `focus` navigation (with its resolved `focus_type`/`focus_entity`);
the hard-coded `EdmxTarget` (`/$metadata`), `WhoAmITarget` (`/WhoAmI`) and
`EntityDefinitionsTarget` carry their fixed data.  `ExpandTarget` and
`FunctionTarget`-style addressing are outside the model. -/
inductive Target where
  | fromT (entity_set : String) (id : Option String) (focus : Option String)
      (focus_type : Option String) (focus_entity : Option String)
  | edmx
  | whoami
  | entityDefs (logical_name : Option String) (id : Option String)
  deriving DecidableEq, Repr

/-- `allowed_parts` as fixed by each `create` factory.  For `FromTarget` the
set depends only on whether `id`/`focus` are present, so it is computed from
the fields (validation updates neither presence). -/
def Target.allowedParts : Target → List QueryPart
  | .fromT _ id focus _ _ =>
    if focus.isSome ∨ id.isSome then [.selectP, .expandP] else [.anyPart]
  | .edmx => [.nonePart]
  | .whoami => [.nonePart]
  | .entityDefs _ _ => [.selectP]

/-- `validate_requires_metadata` as fixed by each `create` factory. -/
def Target.requiresMetadata : Target → Bool
  | .fromT _ _ _ _ _ => true
  | _ => false

/-- `_part_validation_error` as fixed by each `create` factory (`""` is set
for a plain `FromTarget` and is falsy when the message is assembled). -/
def Target.partValidationError : Target → Option String
  | .fromT _ id focus _ _ =>
    if focus.isSome ∨ id.isSome then
      some "FROM only allows SELECT and EXPAND when using ID or FOCUS."
    else some ""
  | _ => Option.none

/-- `target.__class__.__name__`. -/
def Target.className : Target → String
  | .fromT _ _ _ _ _ => "FromTarget"
  | .edmx => "EdmxTarget"
  | .whoami => "WhoAmITarget"
  | .entityDefs _ _ => "EntityDefinitionsTarget"

/-- The `target_entity` property: `focus_entity or entity_set` for
`FromTarget`; the hard-coded targets raise `RuntimeError`. -/
def Target.targetEntity : Target → Option String
  | .fromT es _ _ _ fe => some (match fe with | some f => f | Option.none => es)
  | _ => Option.none

/-- `Target.to_path` (truthiness of `self.id`: an empty string behaves like
no id). -/
def Target.toPath : Target → String
  | .fromT es id focus ftype _ =>
    match id with
    | some idv =>
      if idv = "" then "/" ++ es
      else
        let base :=
          if isGuid idv then "/" ++ es ++ "(" ++ normalizeGuid idv ++ ")"
          else "/" ++ es ++ "(LogicalName='" ++ idv ++ "')"
        match focus with
        | some fc =>
          base ++ "/" ++ fc ++ (match ftype with | some ft => "/" ++ ft | Option.none => "")
        | Option.none => base
    | Option.none => "/" ++ es
  | .edmx => "/$metadata"
  | .whoami => "/WhoAmI"
  | .entityDefs ln id =>
    match id with
    | some idv =>
      if idv = "" then
        match ln with
        | some l => if l = "" then "/EntityDefinitions"
                    else "/EntityDefinitions(LogicalName='" ++ escapeQuotes l ++ "')"
        | Option.none => "/EntityDefinitions"
      else "/EntityDefinitions(" ++ normalizeGuid idv ++ ")"
    | Option.none =>
      match ln with
      | some l => if l = "" then "/EntityDefinitions"
                  else "/EntityDefinitions(LogicalName='" ++ escapeQuotes l ++ "')"
      | Option.none => "/EntityDefinitions"

/-! ### Query state and pipeline (`query.py`) -/

/-- Query-level errors, one per raise site. -/
inductive QErr where
  /-- `ValueError` raised by `_enforce_allowed_parts`, carrying its message -/
  | capability (msg : String)
  /-- `AttributeError`: `generate` passes a `None` target into the enforce call -/
  | noTarget
  /-- `ValidationError("Query has no target. ...")` -/
  | noTargetValidation
  /-- `ValidationError(f"... requires metadata for validation ...")` -/
  | metadataMissing
  /-- `AttributeError`: a `None` metadata object dereferenced downstream -/
  | metadataNone
  /-- `ValidationError(f"Unsupported target type for validation: ...")` -/
  | unsupportedTarget
  /-- `ValidationLookupError`: entity has no `entity_set_name` -/
  | entitySetNameMissing
  /-- `ValidationLookupError(f"Unknown entity: ...")` -/
  | unknownEntity
  /-- `ValidationLookupError`: focus navigation property not found -/
  | focusNavNotFound
  /-- `ValidationLookupError`: focus destination entity not found -/
  | focusEntityNotFound
  /-- `RuntimeError` from the `target_entity` property of a hard-coded target -/
  | runtimeNoTargetEntity
  /-- `ValidationLookupError(f"Unable to find target entity ...")` -/
  | targetEntityNotFound
  /-- `ValidationLookupError` on an unknown selected field -/
  | selectAttrNotFound
  /-- `ValueError(f"Unknown property in $orderby: ...")` -/
  | orderbyUnknownProp
  /-- `ValueError("$skip must be non-negative")` in `query_validation` -/
  | skipNegative
  /-- `ValueError("$top must be non-negative")` in `query_validation` -/
  | topNegative
  /-- `ValueError` in the `skip_` builder -/
  | skipValueErr
  /-- `ValueError` in the `top_` builder -/
  | topValueErr
  /-- `ValueError("Use of Focus required an entity id or name.")` -/
  | focusRequiresId
  /-- an error propagated from filter validation -/
  | filterErr (e : VErr)
  /-- an error propagated from a flattener inside a builder -/
  | flattenErr (e : FErr)
  deriving DecidableEq, Repr

/-- The query-part state of `QueryBase` (expansion list outside the model). -/
structure QueryState where
  target : Option Target := Option.none
  select : List String := []
  filter : Option Expr := Option.none
  count : Option Bool := Option.none
  orderby : List OrderByItem := []
  skip : Option Int := Option.none
  top : Option Int := Option.none

/-- A fresh `Query()`. -/
def emptyQuery : QueryState := {}

/-- `FromTarget.create`: focus without id is a `ValueError`. -/
def fromTargetCreate (entity_set : String) (id focus : Option String) :
    Except QErr Target :=
  if focus.isSome ∧ id.isNone then .error .focusRequiresId
  else .ok (.fromT entity_set id focus Option.none Option.none)

/-- `Query.from_`. -/
def from_ (q : QueryState) (entity_set : String) (id focus : Option String) :
    Except QErr QueryState :=
  (fromTargetCreate entity_set id focus).map (fun t => { q with target := some t })

/-- `Query.edmx_`. -/
def edmx_ (q : QueryState) : QueryState := { q with target := some .edmx }

/-- `Query.whoami_`. -/
def whoami_ (q : QueryState) : QueryState := { q with target := some .whoami }

/-- `Query.entitydefinitions_`. -/
def entitydefinitions_ (q : QueryState) : QueryState :=
  { q with target := some (.entityDefs Option.none Option.none) }

/-- `QueryBase.select_`: flatten, then append each new name not already
selected. -/
def select_ (q : QueryState) (fields : List FIn) : Except QErr QueryState :=
  match flattenFields fields with
  | .error e => .error (.flattenErr e)
  | .ok normalized =>
    .ok { q with select :=
      normalized.foldl (fun acc f => if f ∈ acc then acc else acc ++ [f]) q.select }

/-- `QueryBase.where_`: flatten; one expression is taken as-is, several are
combined with `And`; an existing filter is conjoined with `And`. -/
def where_ (q : QueryState) (items : List EIn) : Except QErr QueryState :=
  match flattenExprs items with
  | .error e => .error (.flattenErr e)
  | .ok [] => .ok q
  | .ok (e :: rest) =>
    let incoming := if rest.isEmpty then e else mkAnd (e :: rest)
    let newFilter :=
      match q.filter with
      | Option.none => incoming
      | some old => mkAnd [old, incoming]
    .ok { q with filter := some newFilter }

/-- `QueryBase.or_where_`, the `Or` analogue. -/
def orWhere_ (q : QueryState) (items : List EIn) : Except QErr QueryState :=
  match flattenExprs items with
  | .error e => .error (.flattenErr e)
  | .ok [] => .ok q
  | .ok (e :: rest) =>
    let incoming := if rest.isEmpty then e else mkOr (e :: rest)
    let newFilter :=
      match q.filter with
      | Option.none => incoming
      | some old => mkOr [old, incoming]
    .ok { q with filter := some newFilter }

/-- `QueryBase.count_`. -/
def count_ (q : QueryState) (enabled : Bool) : QueryState :=
  { q with count := some enabled }

/-- `QueryBase.orderby_`: flatten the arguments, then append each normalized
item whose `(field, desc)` pair is not already in the list (the `seen` set is
initialized from the existing list, so the dedup key across calls is the
pair, not the field). -/
def orderby_ (q : QueryState) (items : List OBVal) : Except QErr QueryState :=
  match flattenOrderby items with
  | .error e => .error (.flattenErr e)
  | .ok normalized =>
    .ok { q with orderby :=
      normalized.foldl (fun acc it => if it ∈ acc then acc else acc ++ [it]) q.orderby }

/-- `QueryBase.skip_`. -/
def skip_ (q : QueryState) (n : Int) : Except QErr QueryState :=
  if n < 0 then .error .skipValueErr else .ok { q with skip := some n }

/-- `QueryBase.top_`. -/
def top_ (q : QueryState) (n : Int) : Except QErr QueryState :=
  if n < 0 then .error .topValueErr else .ok { q with top := some n }

/-- `QueryBase._present_parts` (in the source's insertion order; `EXPAND`
cannot occur in the modeled state). -/
def presentParts (q : QueryState) : List QueryPart :=
  (if q.select ≠ [] then [QueryPart.selectP] else []) ++
  (if q.filter.isSome then [QueryPart.filterP] else []) ++
  (if q.orderby ≠ [] then [QueryPart.orderbyP] else []) ++
  (if q.skip.isSome then [QueryPart.skipP] else []) ++
  (if q.top.isSome then [QueryPart.topP] else []) ++
  (if q.count.isSome then [QueryPart.countP] else [])

/-- Stable ascending insertion sort, modeling `sorted` over name strings. -/
def insertSorted (s : String) : List String → List String
  | [] => [s]
  | x :: xs => if s ≤ x then s :: x :: xs else x :: insertSorted s xs

/-- `sorted(strings)`. -/
def sortStrings (l : List String) : List String := l.foldr insertSorted []

/-- The `f" {err}" if err else ""` suffix appended to capability messages. -/
def partErrSuffix (t : Target) : String :=
  match t.partValidationError with
  | some e => if e ≠ "" then " " ++ e else ""
  | Option.none => ""

/-- `QueryBase._enforce_allowed_parts`: `__ANY__` passes everything; a target
holding `__NONE__` fails on any present facet with a message that names no
facet; otherwise the leftover facets are reported in one combined,
alphabetically sorted message. -/
def enforceAllowedParts (t : Target) (q : QueryState) : Except String Unit :=
  let allowed := t.allowedParts
  if QueryPart.anyPart ∈ allowed then .ok ()
  else if presentParts q ≠ [] ∧ QueryPart.nonePart ∈ allowed then
    .error (t.className ++ " does not allow any query parts." ++ partErrSuffix t)
  else
    let disallowed := (presentParts q).filter (fun p => ¬ p ∈ allowed)
    if disallowed.isEmpty then .ok ()
    else .error (t.className ++ " does not allow: " ++
      String.intercalate ", " (sortStrings (disallowed.map QueryPart.pyName)) ++
      "." ++ partErrSuffix t)

/-- `validate_from_target`: resolve the target entity, require a bound
entity-set name, canonicalize `entity_set`; then, when a focus navigation is
set, resolve it on the entity and require its destination entity to exist,
recording the resolved names. -/
def validateFromTarget (m : ServiceMetadata) (t : Target) : Except QErr Target :=
  match t with
  | .fromT es id focus ftype fe =>
    let te := match fe with | some f => f | Option.none => es
    match getEntity m te with
    | Option.none => .error .unknownEntity
    | some (entity, _entityName) =>
      match entity.entity_set_name with
      | Option.none => .error .entitySetNameMissing
      | some esn =>
        let es2 := if te ≠ esn then esn else es
        match focus with
        | Option.none => .ok (.fromT es2 id focus ftype fe)
        | some fc =>
          match getNavPropInEntity entity fc with
          | Option.none => .error .focusNavNotFound
          | some (navp, actualNav) =>
            match navp.to_entity_type with
            | Option.none => .error .focusEntityNotFound
            | some ten =>
              match getEntity m ten with
              | Option.none => .error .focusEntityNotFound
              | some (_, focusEntityName) =>
                .ok (.fromT es2 id (some actualNav) ftype (some focusEntityName))
  | _ => .error .unsupportedTarget

/-- `target_validation`: no target is an error; targets that do not require
metadata return untouched; a metadata-requiring target without metadata is an
error; `FromTarget` goes through `validate_from_target` (the expand target is
outside the model). -/
def targetValidation (md : Option ServiceMetadata) (q : QueryState) :
    Except QErr QueryState :=
  match q.target with
  | Option.none => .error .noTargetValidation
  | some t =>
    if t.requiresMetadata = false then .ok q
    else
      match md with
      | Option.none => .error .metadataMissing
      | some m => (validateFromTarget m t).map (fun t2 => { q with target := some t2 })

/-- The element-wise rewrite loop of `select_validation`: each field resolves
against the attribute map, and the entry is replaced only when a differing
truthy `api_name` was found. -/
def rewriteSelect (entity : Entity) : List String → Except QErr (List String)
  | [] => .ok []
  | f :: rest =>
    match getAttributeInEntity entity f with
    | Option.none => .error .selectAttrNotFound
    | some (attr, aname) =>
      let r := attributeApiName attr aname
      let entry := if r.2 then r.1 else f
      (rewriteSelect entity rest).map (entry :: ·)

/-- `select_validation`: resolve the target entity (the hard-coded targets
raise `RuntimeError` from `target_entity`, and a missing metadata object
fails on dereference); the sentinel `"-"` collapses the list to the primary
key, `"*"` collapses it to empty, otherwise every entry is resolved and
canonicalized.  (The model reads a missing `primary_key` as `""`; the source
would store Python `None` there, a value no modeled schema produces.) -/
def selectValidation (md : Option ServiceMetadata) (q : QueryState) :
    Except QErr QueryState :=
  match q.target with
  | Option.none => .error .noTarget
  | some t =>
    match t.targetEntity with
    | Option.none => .error .runtimeNoTargetEntity
    | some te =>
      match md with
      | Option.none => .error .metadataNone
      | some m =>
        match getEntity m te with
        | Option.none => .error .targetEntityNotFound
        | some (entity, _) =>
          if "-" ∈ q.select then
            .ok { q with select := [match entity.primary_key with
                                    | some k => k | Option.none => ""] }
          else if "*" ∈ q.select then .ok { q with select := [] }
          else (rewriteSelect entity q.select).map (fun l => { q with select := l })

/-- `filter_validation`: only a `FromTarget` query with a filter validates
the expression, against the (already canonicalized) target entity. -/
def filterValidation (md : Option ServiceMetadata) (q : QueryState) :
    Except QErr QueryState :=
  match q.filter with
  | Option.none => .ok q
  | some f =>
    match q.target with
    | some (.fromT es _ _ _ fe) =>
      match md with
      | Option.none => .error .metadataNone
      | some m =>
        let te := match fe with | some x => x | Option.none => es
        match validateExpr m te f with
        | .ok f2 => .ok { q with filter := some f2 }
        | .error e => .error (.filterErr e)
    | _ => .ok q

/-- The element-wise rewrite loop of `orderby_validation` (fields rewritten
to the found attribute key, not the `api_name`). -/
def rewriteOrderby (m : ServiceMetadata) (te : String) :
    List OrderByItem → Except QErr (List OrderByItem)
  | [] => .ok []
  | it :: rest =>
    match getAttribute m te it.field with
    | Option.none => .error .orderbyUnknownProp
    | some (_, aname) =>
      let it2 := if aname ≠ it.field then { it with field := aname } else it
      (rewriteOrderby m te rest).map (it2 :: ·)

/-- `orderby_validation`. -/
def orderbyValidation (md : Option ServiceMetadata) (q : QueryState) :
    Except QErr QueryState :=
  if q.orderby.isEmpty then .ok q
  else
    match q.target with
    | Option.none => .error .noTarget
    | some t =>
      match t.targetEntity with
      | Option.none => .error .runtimeNoTargetEntity
      | some te =>
        match md with
        | Option.none => .error .metadataNone
        | some m => (rewriteOrderby m te q.orderby).map (fun l => { q with orderby := l })

/-- `query_validation`: target, select, filter, orderby, then the defensive
skip/top bounds checks. -/
def queryValidation (md : Option ServiceMetadata) (q : QueryState) :
    Except QErr QueryState := do
  let q1 ← targetValidation md q
  let q2 ← selectValidation md q1
  let q3 ← filterValidation md q2
  let q4 ← orderbyValidation md q3
  match q4.skip with
  | some n => if n < 0 then throw .skipNegative else pure ()
  | Option.none => pure ()
  match q4.top with
  | some n => if n < 0 then throw .topNegative else pure ()
  | Option.none => pure ()
  pure q4

/-- `QueryBase._compile`: assemble the `$`-parts in source order and join
with `&`. -/
def compileParts (q : QueryState) : String :=
  let parts : List String :=
    (match q.select with
     | [] => [] | l => ["$select=" ++ String.intercalate "," l]) ++
    (match q.filter with
     | some f => ["$filter=" ++ compileExpr f] | Option.none => []) ++
    (match q.count with
     | some c => ["$count=" ++ (if c then "true" else "false")] | Option.none => []) ++
    (match q.orderby with
     | [] => [] | l => ["$orderby=" ++ compileOrderby l]) ++
    (match q.skip with
     | some n => ["$skip=" ++ toString n] | Option.none => []) ++
    (match q.top with
     | some n => ["$top=" ++ toString n] | Option.none => [])
  String.intercalate "&" parts

/-- `Query.generate`: enforce the capability gate (an absent target
dereferences as `AttributeError`), optionally run `query_validation`, compile
the parts, and prepend the target path (expansions outside the model). -/
def generate (md : Option ServiceMetadata) (q : QueryState) (validate : Bool) :
    Except QErr String :=
  match q.target with
  | Option.none => .error .noTarget
  | some t =>
    match enforceAllowedParts t q with
    | .error msg => .error (.capability msg)
    | .ok _ =>
      let validated : Except QErr QueryState :=
        if validate then queryValidation md q else .ok q
      match validated with
      | .error e => .error e
      | .ok q2 =>
        match q2.target with
        | Option.none => .error .noTarget
        | some t2 =>
          let partsStr := compileParts q2
          .ok (t2.toPath ++ (if partsStr ≠ "" then "?" ++ partsStr else ""))

/-! ### The Python `==` operator on AST nodes (`ast.py`)

`Prop` overrides `__eq__` to build an `Eq` comparison node; every other node
class keeps the dataclass-generated structural `__eq__`, whose field-tuple
comparison converts each nested item comparison to a truth value (an `Expr`
object returned by a nested `Prop` comparison is truthy).  A comparison
between different classes returns `NotImplemented`, Python then tries the
reflected operand (reaching `Prop.__eq__` when the right side is a `Prop`)
and finally falls back to identity, `false` for the distinct structurally
built values modeled here. -/

/-- The value `a == b` evaluates to: a real bool, or an AST node. -/
inductive EqResult where
  | pybool (b : Bool)
  | pynode (e : Expr)

/-- Python truthiness of a comparison result (any object is truthy). -/
def truthy : EqResult → Bool
  | .pybool x => x
  | .pynode _ => true

mutual

/-- `a == b` on AST nodes. -/
def pyEq (a b : Expr) : EqResult :=
  match a, b with
  | .prop n, _ => .pynode (.bin .eq (.prop n) b)
  | _, .prop m => .pynode (.bin .eq (.prop m) a)
  | .lit v, .lit w => .pybool (pyValEq v w)
  | .andE ts, .andE us => .pybool (pyEqListTruthy ts us)
  | .orE ts, .orE us => .pybool (pyEqListTruthy ts us)
  | .notE e, .notE f => .pybool (truthy (pyEq e f))
  | .bin op l r, .bin op2 l2 r2 =>
    if op = op2 then .pybool (truthy (pyEq l l2) && truthy (pyEq r r2))
    else .pybool false
  | .inE l opts, .inE l2 opts2 =>
    .pybool (truthy (pyEq l l2) && pyEqListTruthy opts opts2)
  | _, _ => .pybool false

/-- Elementwise tuple comparison with truthiness, plus the length check. -/
def pyEqListTruthy : List Expr → List Expr → Bool
  | [], [] => true
  | x :: xs, y :: ys => truthy (pyEq x y) && pyEqListTruthy xs ys
  | _, _ => false

end

/-! ### Concrete schema used by the closed scenarios

Entity `Contact`, exposed through entity set `contacts`, with a string
attribute `fullname`, a GUID attribute `id`, a string attribute `name` and an
enum attribute `status` of enum `Status {Active=1, Inactive=2}`, in schema
namespace `Ns`. -/

/-- The `Contact` entity record. -/
def contactEntity : Entity :=
  { primary_key := some "contactid"
    entity_set_name := some "contacts"
    attributes :=
      [ ("fullname", { api_name := some "fullname", type := some "String"
                       full_type := some "Edm.String", type_element := some .edm })
      , ("id", { api_name := some "id", type := some "Guid"
                 full_type := some "Edm.Guid", type_element := some .edm })
      , ("name", { api_name := some "name", type := some "String"
                   full_type := some "Edm.String", type_element := some .edm })
      , ("status", { api_name := some "status", type := some "Status"
                     full_type := some "Status", type_element := some .enumType }) ]
    navigation_properties := [] }

/-- The test schema. -/
def testMd : ServiceMetadata :=
  { schema_namespace := "Ns"
    schema_alias := "NsA"
    entity_sets := [("contacts", "Contact")]
    entities := [("Contact", contactEntity)]
    enums := [("Status", { enum_is_flags := false
                           members := [("Active", "1"), ("Inactive", "2")] })] }

/-! ## Helper lemmas on the string normalizer -/

/-- A prefix of a `dropWhile`-fixed list is itself `dropWhile`-fixed. -/
theorem dropWhile_prefix_self {p : Char → Bool} {u t : List Char}
    (h : List.dropWhile p (u ++ t) = u ++ t) : List.dropWhile p u = u := by
  cases u with
  | nil => rfl
  | cons c cs =>
    rw [List.cons_append, List.dropWhile_cons] at h
    by_cases hc : p c
    · rw [if_pos hc] at h
      have hlen := (List.dropWhile_suffix (l := cs ++ t) p).sublist.length_le
      rw [h] at hlen
      simp only [List.length_cons] at hlen
      omega
    · rw [List.dropWhile_cons, if_neg hc]

/-- `pyStripList` is a right-drop of a left-drop. -/
theorem pyStripList_eq (l : List Char) :
    pyStripList l = List.rdropWhile isPyWs (l.dropWhile isPyWs) := by
  simp [pyStripList, List.rdropWhile]

/-- Stripping is idempotent at the character-list level. -/
theorem pyStripList_idem (l : List Char) :
    pyStripList (pyStripList l) = pyStripList l := by
  rw [pyStripList_eq l, pyStripList_eq]
  have h1 : List.dropWhile isPyWs (List.dropWhile isPyWs l) = List.dropWhile isPyWs l := by
    rw [List.dropWhile_idempotent]
  obtain ⟨t, ht⟩ := List.rdropWhile_prefix isPyWs (l.dropWhile isPyWs)
  have h2 : List.dropWhile isPyWs (List.rdropWhile isPyWs (l.dropWhile isPyWs))
      = List.rdropWhile isPyWs (l.dropWhile isPyWs) := by
    apply dropWhile_prefix_self (t := t)
    rw [ht]
    exact h1
  rw [h2, List.rdropWhile_idempotent]

/-- `str.strip()` is idempotent. -/
theorem pyStrip_idem (s : String) : pyStrip (pyStrip s) = pyStrip s := by
  show String.mk (pyStripList (String.mk (pyStripList s.toList)).toList) = _
  show String.mk (pyStripList (pyStripList s.toList)) = _
  rw [pyStripList_idem]
  rfl

/-! ## Helper lemmas on the flatteners -/

/-- The well-formedness every `flatten_fields` output element satisfies. -/
def FieldOk (s : String) : Prop := pyStrip s = s ∧ s ≠ ""

/-- `add_one` preserves the output invariants. -/
theorem addOneField_inv {out : List String} (h1 : ∀ x ∈ out, FieldOk x)
    (h2 : out.Nodup) (s : String) :
    (∀ x ∈ addOneField s out, FieldOk x) ∧ (addOneField s out).Nodup := by
  unfold addOneField
  by_cases he : pyStrip s = ""
  · rw [if_pos he]
    exact ⟨h1, h2⟩
  · rw [if_neg he]
    by_cases hm : pyStrip s ∈ out
    · rw [if_pos hm]
      exact ⟨h1, h2⟩
    · rw [if_neg hm]
      refine ⟨?_, ?_⟩
      · intro x hx
        rcases List.mem_append.mp hx with h | h
        · exact h1 x h
        · rw [List.mem_singleton.mp h]
          exact ⟨pyStrip_idem s, he⟩
      · simp [List.nodup_append, h2, hm]

mutual

/-- `walk` of `flatten_fields` preserves the output invariants. -/
theorem walkF1_inv (x : FIn) (st : List String)
    (h1 : ∀ y ∈ st, FieldOk y) (h2 : st.Nodup) (out : List String)
    (hout : walkF1 x st = .ok out) : (∀ y ∈ out, FieldOk y) ∧ out.Nodup := by
  match x with
  | .fnone =>
    rw [walkF1] at hout
    cases hout
    exact ⟨h1, h2⟩
  | .fstr s =>
    rw [walkF1] at hout
    cases hout
    exact addOneField_inv h1 h2 s
  | .fiter xs =>
    rw [walkF1] at hout
    exact walkFL_inv xs st h1 h2 out hout
  | .fatom =>
    rw [walkF1] at hout
    cases hout

/-- The `walk` iteration of `flatten_fields` preserves the output
invariants. -/
theorem walkFL_inv (xs : List FIn) (st : List String)
    (h1 : ∀ y ∈ st, FieldOk y) (h2 : st.Nodup) (out : List String)
    (hout : walkFL xs st = .ok out) : (∀ y ∈ out, FieldOk y) ∧ out.Nodup := by
  match xs with
  | [] =>
    rw [walkFL] at hout
    cases hout
    exact ⟨h1, h2⟩
  | x :: rest =>
    rw [walkFL] at hout
    cases hmid : walkF1 x st with
    | ok st2 =>
      rw [hmid] at hout
      have h3 := walkF1_inv x st h1 h2 st2 hmid
      exact walkFL_inv rest st2 h3.1 h3.2 out hout
    | error e =>
      rw [hmid] at hout
      cases hout

end

/-- Re-walking a pure string list folds `add_one` over it. -/
theorem walkFL_map_fstr (l : List String) : ∀ acc,
    walkFL (l.map FIn.fstr) acc = .ok (l.foldl (fun st s => addOneField s st) acc) := by
  induction l with
  | nil => intro acc; simp [walkFL]
  | cons s rest ih =>
    intro acc
    simp only [List.map_cons, walkFL, walkF1, List.foldl_cons]
    exact ih _

/-- Folding `add_one` over an already-clean deduplicated list appends it
unchanged. -/
theorem foldl_addOneField (out : List String) : ∀ acc,
    (∀ x ∈ out, FieldOk x) → (acc ++ out).Nodup →
    out.foldl (fun st s => addOneField s st) acc = acc ++ out := by
  induction out with
  | nil => intro acc _ _; simp
  | cons a rest ih =>
    intro acc hok hnd
    have ha : FieldOk a := hok a (by simp)
    have hnotmem : a ∉ acc := by
      intro hmem
      have := (List.nodup_append.mp hnd).2.2
      exact this hmem (by simp)
    have hstep : addOneField a acc = acc ++ [a] := by
      unfold addOneField
      rw [ha.1, if_neg ha.2, if_neg hnotmem]
    rw [List.foldl_cons, hstep, ih (acc ++ [a]) (fun x hx => hok x (by simp [hx]))
      (by simpa [List.append_assoc] using hnd)]
    simp

/-- Re-walking a pure atom list appends it unchanged. -/
theorem walkEL_map_eatom (l : List Expr) : ∀ acc,
    walkEL (l.map EIn.eatom) acc = .ok (acc ++ l) := by
  induction l with
  | nil => intro acc; simp [walkEL]
  | cons e rest ih =>
    intro acc
    simp only [List.map_cons, walkEL, walkE1]
    rw [ih (acc ++ [e])]
    simp

/-! ## Helper lemmas on the orderby normalizer -/

/-- `add` of `flatten_orderby` preserves distinctness of the field keys. -/
theorem obAdd_keys_nodup (st : List (String × Bool)) (f : String) (d : Bool)
    (h : (st.map Prod.fst).Nodup) : ((obAdd st f d).map Prod.fst).Nodup := by
  unfold obAdd
  by_cases he : pyStrip f = ""
  · rw [if_pos he]; exact h
  · rw [if_neg he]
    by_cases hm : st.any (·.1 = pyStrip f)
    · rw [if_pos hm]
      have hmapeq : (st.map (fun p => if p.1 = pyStrip f then (p.1, d) else p)).map Prod.fst
          = st.map Prod.fst := by
        rw [List.map_map]
        apply List.map_congr_left
        intro p _
        by_cases hp : p.1 = pyStrip f
        · simp [hp]
        · simp [hp]
      rw [hmapeq]
      exact h
    · rw [if_neg hm]
      have hnot : pyStrip f ∉ st.map Prod.fst := by
        intro hmem
        apply hm
        rw [List.any_eq_true]
        rcases List.mem_map.mp hmem with ⟨p, hp, hfst⟩
        exact ⟨p, hp, by simp [hfst]⟩
      simp [List.nodup_append, h, hnot]

/-- The string form of the walk preserves key distinctness. -/
theorem obAddString_keys_nodup {st st2 : List (String × Bool)} {s : String}
    (h : obAddString st s = .ok st2)
    (hn : (st.map Prod.fst).Nodup) : (st2.map Prod.fst).Nodup := by
  unfold obAddString at h
  cases hsp : pySplitWs (pyStrip s) with
  | nil =>
    simp only [hsp] at h
    exact Except.noConfusion h
  | cons f rest =>
    cases rest with
    | nil =>
      simp only [hsp] at h
      cases h
      exact obAdd_keys_nodup st f false hn
    | cons d rest2 =>
      cases rest2 with
      | nil =>
        simp only [hsp] at h
        by_cases ha : pyLower d = "asc"
        · rw [if_pos ha] at h
          cases h
          exact obAdd_keys_nodup st f false hn
        · rw [if_neg ha] at h
          by_cases hd : pyLower d = "desc"
          · rw [if_pos hd] at h
            cases h
            exact obAdd_keys_nodup st f true hn
          · rw [if_neg hd] at h
            cases h
      | cons w rest3 =>
        simp only [hsp] at h
        exact Except.noConfusion h

mutual

/-- The `walk` function of `flatten_orderby` preserves key distinctness. -/
theorem walkOB1_keys_nodup (x : OBVal) (st : List (String × Bool))
    (hn : (st.map Prod.fst).Nodup) (out : List (String × Bool))
    (hout : walkOB1 x st = .ok out) : (out.map Prod.fst).Nodup := by
  match x with
  | .onone =>
    rw [walkOB1] at hout
    cases hout
    exact hn
  | .os s =>
    rw [walkOB1] at hout
    exact obAddString_keys_nodup hout hn
  | .ob b =>
    rw [walkOB1] at hout
    cases hout
  | .oitem f d =>
    rw [walkOB1] at hout
    cases hout
  | .oiter xs =>
    rw [walkOB1] at hout
    cases hcl : classifyIter xs with
    | pairB f d =>
      simp only [hcl] at hout
      cases hout
      exact obAdd_keys_nodup st f d hn
    | pairS f d =>
      simp only [hcl] at hout
      by_cases ha : pyLower d = "asc"
      · rw [if_pos ha] at hout
        cases hout
        exact obAdd_keys_nodup st f false hn
      · rw [if_neg ha] at hout
        by_cases hd : pyLower d = "desc"
        · rw [if_pos hd] at hout
          cases hout
          exact obAdd_keys_nodup st f true hn
        · rw [if_neg hd] at hout
          cases hout
    | pairBad =>
      simp only [hcl] at hout
      exact Except.noConfusion hout
    | notPair =>
      simp only [hcl] at hout
      exact walkOBL_keys_nodup xs st hn out hout
termination_by sizeOf x

/-- The `walk` iteration of `flatten_orderby` preserves key distinctness. -/
theorem walkOBL_keys_nodup (xs : List OBVal) (st : List (String × Bool))
    (hn : (st.map Prod.fst).Nodup) (out : List (String × Bool))
    (hout : walkOBL xs st = .ok out) : (out.map Prod.fst).Nodup := by
  match xs with
  | [] =>
    rw [walkOBL] at hout
    cases hout
    exact hn
  | x :: rest =>
    rw [walkOBL] at hout
    cases hmid : walkOB1 x st with
    | ok st2 =>
      rw [hmid] at hout
      exact walkOBL_keys_nodup rest st2 (walkOB1_keys_nodup x st hn st2 hmid) out hout
    | error e =>
      rw [hmid] at hout
      cases hout
termination_by sizeOf xs

end

/-- `flatten_orderby` output has at most one entry per field. -/
theorem flattenOrderby_fields_nodup (items : List OBVal) (out : List OrderByItem)
    (h : flattenOrderby items = .ok out) : (out.map OrderByItem.field).Nodup := by
  unfold flattenOrderby at h
  cases hw : walkOBL items [] with
  | ok st =>
    rw [hw] at h
    have hout : out = st.map (fun p => ⟨p.1, p.2⟩) := by
      cases h
      rfl
    have hkeys := walkOBL_keys_nodup items [] (by simp) st hw
    rw [hout, List.map_map]
    exact hkeys
  | error e =>
    rw [hw] at h
    cases h

/-- The append-if-new fold of `orderby_` preserves item distinctness. -/
theorem foldl_dedupAppend_nodup (norm : List OrderByItem) : ∀ cur : List OrderByItem,
    cur.Nodup →
    (norm.foldl (fun acc it => if it ∈ acc then acc else acc ++ [it]) cur).Nodup := by
  induction norm with
  | nil => intro cur h; exact h
  | cons it rest ih =>
    intro cur h
    simp only [List.foldl_cons]
    by_cases hm : it ∈ cur
    · rw [if_pos hm]
      exact ih cur h
    · rw [if_neg hm]
      exact ih _ (by simp [List.nodup_append, h, hm])

/-- A sequence of `orderby_` calls applied in order to a query. -/
def applyOrderbyCalls : List (List OBVal) → QueryState → Except QErr QueryState
  | [], q => .ok q
  | items :: rest, q =>
    match orderby_ q items with
    | .ok q2 => applyOrderbyCalls rest q2
    | .error e => .error e

/-- Any sequence of `orderby_` calls keeps the orderby list free of exact
`(field, desc)` duplicates. -/
theorem applyOrderbyCalls_nodup : ∀ (calls : List (List OBVal)) (q : QueryState),
    q.orderby.Nodup → ∀ q2, applyOrderbyCalls calls q = .ok q2 → q2.orderby.Nodup := by
  intro calls
  induction calls with
  | nil =>
    intro q h q2 h2
    rw [applyOrderbyCalls] at h2
    cases h2
    exact h
  | cons items rest ih =>
    intro q h q2 h2
    rw [applyOrderbyCalls] at h2
    cases ho : orderby_ q items with
    | ok qmid =>
      rw [ho] at h2
      refine ih qmid ?_ q2 h2
      unfold orderby_ at ho
      cases hf : flattenOrderby items with
      | ok norm =>
        rw [hf] at ho
        cases ho
        exact foldl_dedupAppend_nodup norm q.orderby h
      | error e =>
        rw [hf] at ho
        cases ho
    | error e =>
      rw [ho] at h2
      cases h2

/-! ## Helper lemmas on the validator -/

/-- `validate_binary_expr` on an EDM-typed attribute with a matching literal:
the property is canonicalized and a `Guid`-typed attribute gets its literal
rewritten into an unquoted raw token. -/
theorem validateBinaryExpr_edm (md : ServiceMetadata) (entity pname : String)
    (v : LitValue) (op : BinOp) (attr : Attribute) (aname : String)
    (hget : getAttribute md entity pname = some (attr, aname))
    (hte : attr.type_element = some .edm)
    (hok : valueMatchesEdm v attr.full_type = true) :
    validateBinaryExpr md entity op (.prop pname) (.lit v)
      = .ok (.bin op (.prop (attributeApiName attr aname).1)
          (if attr.type = some "Guid" then .prop (litAsPropName v) else .lit v)) := by
  unfold validateBinaryExpr
  simp [Expr.isProp, Expr.isLit, hget, hte, validateProp, hok]

/-- A string-typed literal against `Edm.Guid` validates exactly when it is a
well-formed GUID. -/
theorem valueMatchesEdm_guid (g : String) :
    valueMatchesEdm (.s g) (some "Edm.Guid") = isGuid g := by
  simp [valueMatchesEdm, LitValue.isStr, pyStr]

/-- A string-typed literal always matches `Edm.String`. -/
theorem valueMatchesEdm_string (g : String) :
    valueMatchesEdm (.s g) (some "Edm.String") = true := by
  simp [valueMatchesEdm, LitValue.isStr]

/-- The `status` attribute of the test schema. -/
def statusAttr : Attribute :=
  { api_name := some "status", type := some "Status"
    full_type := some "Status", type_element := some .enumType }

/-- Resolution of `status` on `contacts` in the test schema. -/
theorem getAttribute_status :
    getAttribute testMd "contacts" "status" = some (statusAttr, "status") := rfl

/-- A value matching neither member name (exactly or case-insensitively via
its string form) nor member value of `Status {Active=1, Inactive=2}` resolves
to no enum info. -/
theorem getEnumInfo_testMd_none (v : LitValue)
    (h1 : pyLower (pyStr v) ≠ "active") (h2 : pyLower (pyStr v) ≠ "inactive")
    (h3 : pyStr v ≠ "1") (h4 : pyStr v ≠ "2") :
    getEnumInfo testMd "Status" v = Option.none := by
  have e1 : pyLower "Active" = "active" := rfl
  have e2 : pyLower "Inactive" = "inactive" := rfl
  cases v with
  | none => rfl
  | b bool => cases bool <;> rfl
  | i n =>
    have hac : ¬ ("active" = pyLower (pyStr (.i n))) := fun h => h1 h.symm
    have hic : ¬ ("inactive" = pyLower (pyStr (.i n))) := fun h => h2 h.symm
    have h1v : ¬ ("1" = pyStr (.i n)) := fun h => h3 h.symm
    have h2v : ¬ ("2" = pyStr (.i n)) := fun h => h4 h.symm
    simp [getEnumInfo, getEnum, testMd, List.find?, enumMemberByName,
      enumMemberByValue, findCI, e1, e2, hac, hic, h1v, h2v]
  | s m =>
    have hem : pyStr (.s m) = m := rfl
    rw [hem] at h1 h2 h3 h4
    have hAm : ¬ ("Active" = m) := fun h => h1 (by rw [← h]; exact e1)
    have hIm : ¬ ("Inactive" = m) := fun h => h2 (by rw [← h]; exact e2)
    have hac : ¬ ("active" = pyLower m) := fun h => h1 h.symm
    have hic : ¬ ("inactive" = pyLower m) := fun h => h2 h.symm
    have h1m : ¬ ("1" = m) := fun h => h3 h.symm
    have h2m : ¬ ("2" = m) := fun h => h4 h.symm
    simp [getEnumInfo, getEnum, testMd, List.find?, enumMemberByName,
      enumMemberByValue, findCI, hem, e1, e2, hAm, hIm, hac, hic, h1m, h2m]

/-! ## Helper lemmas for the Python equality model -/

/-- Python `v == v` is `True` for the modeled scalar values. -/
theorem pyValEq_refl (v : LitValue) : pyValEq v v = true := by
  cases v <;> simp [pyValEq]

mutual

/-- Reflexive comparison of a node is truthy (a `bool True` for the
dataclass nodes, a truthy `Eq` object for `Prop`). -/
theorem truthy_pyEq_refl (e : Expr) : truthy (pyEq e e) = true := by
  match e with
  | .prop n => rfl
  | .lit v =>
    show truthy (.pybool (pyValEq v v)) = true
    rw [truthy, pyValEq_refl]
  | .andE ts =>
    show truthy (.pybool (pyEqListTruthy ts ts)) = true
    rw [truthy, pyEqListTruthy_refl ts]
  | .orE ts =>
    show truthy (.pybool (pyEqListTruthy ts ts)) = true
    rw [truthy, pyEqListTruthy_refl ts]
  | .notE e1 =>
    show truthy (.pybool (truthy (pyEq e1 e1))) = true
    rw [truthy, truthy_pyEq_refl e1]
  | .bin op l r =>
    show truthy (if op = op then EqResult.pybool (truthy (pyEq l l) && truthy (pyEq r r))
                 else EqResult.pybool false) = true
    rw [if_pos rfl, truthy, truthy_pyEq_refl l, truthy_pyEq_refl r]
    rfl
  | .inE l opts =>
    show truthy (.pybool (truthy (pyEq l l) && pyEqListTruthy opts opts)) = true
    rw [truthy, truthy_pyEq_refl l, pyEqListTruthy_refl opts]
    rfl

/-- Reflexive elementwise comparison of a term tuple is `True`. -/
theorem pyEqListTruthy_refl (l : List Expr) : pyEqListTruthy l l = true := by
  match l with
  | [] => rfl
  | x :: xs =>
    show (truthy (pyEq x x) && pyEqListTruthy xs xs) = true
    rw [truthy_pyEq_refl x, pyEqListTruthy_refl xs]
    rfl

end

/-! ## Concrete query of the round-trip scenario -/

/-- The claim scenario `from_("contacts").where_(Eq("fullname", "Jane"))
.orderby_("fullname desc").top_(5)`, built through the builder layer with
its coercions and normalizers. -/
def c1Query : Except QErr QueryState := do
  let q1 ← from_ emptyQuery "contacts" Option.none Option.none
  let q2 ← where_ q1 [.eatom (mkBin .eq (.ofVal (.s "fullname")) (.ofVal (.s "Jane")))]
  let q3 ← orderby_ q2 [.os "fullname desc"]
  top_ q3 5

/-- The `NoPart` capability gate on the schema-document target: the raised
message is fixed (no facet names appear in it). -/
theorem enforce_edmx_nopart (q : QueryState) (h : presentParts q ≠ []) :
    enforceAllowedParts .edmx q = .error "EdmxTarget does not allow any query parts." := by
  unfold enforceAllowedParts
  rw [if_neg (by decide : ¬ (QueryPart.anyPart ∈ Target.allowedParts Target.edmx))]
  rw [if_pos ⟨h, by decide⟩]
  rfl

/-! ## Claim theorems -/

/-- C1.  End-to-end compilation: for the schema whose entity `Contact` has
entity-set name `contacts` and a string attribute `fullname` of type
`Edm.String`, the query built as `from_("contacts").where_(Eq("fullname",
"Jane")).orderby_("fullname desc").top_(5)` and generated with validation
enabled produces exactly
`/contacts?$filter=(fullname eq 'Jane')&$orderby=fullname desc&$top=5`. -/
theorem c1_roundtrip :
    c1Query.bind (fun q => generate (some testMd) q true)
      = .ok "/contacts?$filter=(fullname eq 'Jane')&$orderby=fullname desc&$top=5" := rfl

/-- C2.  GUID unquoting: for every attribute whose classified EDM type is
`Guid` and every literal holding a valid GUID string, validation rewrites the
literal operand into an unquoted `Prop` token carrying the GUID text, whereas
the same comparison against an `Edm.String` attribute keeps the quoted
`Literal`; at the test schema the compiled texts are
`(id eq 3fa85f64-5717-4562-b3fc-2c963f66afa6)` and `(name eq 'value')`. -/
theorem c2_guid_unquoting :
    (∀ (md : ServiceMetadata) (entity pname g : String) (attr : Attribute) (aname : String),
       getAttribute md entity pname = some (attr, aname) →
       attr.type_element = some .edm →
       attr.type = some "Guid" →
       attr.full_type = some "Edm.Guid" →
       isGuid g = true →
       validateExpr md entity (.bin .eq (.prop pname) (.lit (.s g)))
         = .ok (.bin .eq (.prop (attributeApiName attr aname).1) (.prop g))) ∧
    (∀ (md : ServiceMetadata) (entity pname w : String) (attr : Attribute) (aname : String),
       getAttribute md entity pname = some (attr, aname) →
       attr.type_element = some .edm →
       attr.type = some "String" →
       attr.full_type = some "Edm.String" →
       validateExpr md entity (.bin .eq (.prop pname) (.lit (.s w)))
         = .ok (.bin .eq (.prop (attributeApiName attr aname).1) (.lit (.s w)))) ∧
    ((validateExpr testMd "contacts"
        (.bin .eq (.prop "id") (.lit (.s "3fa85f64-5717-4562-b3fc-2c963f66afa6")))).map compileExpr
      = .ok "(id eq 3fa85f64-5717-4562-b3fc-2c963f66afa6)") ∧
    ((validateExpr testMd "contacts" (.bin .eq (.prop "name") (.lit (.s "value")))).map compileExpr
      = .ok "(name eq 'value')") := by
  refine ⟨?_, ?_, rfl, rfl⟩
  · intro md entity pname g attr aname hget hte hty hfull hg
    have h := validateBinaryExpr_edm md entity pname (.s g) .eq attr aname hget hte
      (by rw [hfull, valueMatchesEdm_guid, hg])
    show validateBinaryExpr md entity .eq (.prop pname) (.lit (.s g)) = _
    rw [h, if_pos hty]
    rfl
  · intro md entity pname w attr aname hget hte hty hfull
    have h := validateBinaryExpr_edm md entity pname (.s w) .eq attr aname hget hte
      (by rw [hfull, valueMatchesEdm_string])
    show validateBinaryExpr md entity .eq (.prop pname) (.lit (.s w)) = _
    rw [h, if_neg (by rw [hty]; simp)]

/-- C2 witness: the general parts applied at the test schema's `id`
attribute and a concrete GUID. -/
theorem c2_guid_unquoting_witness :
    validateExpr testMd "contacts"
        (.bin .eq (.prop "id") (.lit (.s "3fa85f64-5717-4562-b3fc-2c963f66afa6")))
      = .ok (.bin .eq (.prop "id") (.prop "3fa85f64-5717-4562-b3fc-2c963f66afa6")) :=
  c2_guid_unquoting.1 testMd "contacts" "id" "3fa85f64-5717-4562-b3fc-2c963f66afa6"
    { api_name := some "id", type := some "Guid", full_type := some "Edm.Guid"
      type_element := some .edm } "id" rfl rfl rfl rfl rfl

/-- C3.  Enum resolution on the test schema (`status : Status
{Active=1, Inactive=2}` in namespace `Ns`): validating
`Eq(Prop "status", Literal "Active")` rewrites the literal into the
fully-qualified token and compiles to `(status eq Ns.Status'Active')`, while
a literal matching no member name (exactly or case-insensitively) and no
member value raises the lookup error. -/
theorem c3_enum_resolution :
    ((validateExpr testMd "contacts"
        (.bin .eq (.prop "status") (.lit (.s "Active")))).map compileExpr
      = .ok "(status eq Ns.Status'Active')") ∧
    (∀ v : LitValue,
       pyLower (pyStr v) ≠ "active" → pyLower (pyStr v) ≠ "inactive" →
       pyStr v ≠ "1" → pyStr v ≠ "2" →
       validateExpr testMd "contacts" (.bin .eq (.prop "status") (.lit v))
         = .error .enumMemberNotFound) := by
  refine ⟨rfl, ?_⟩
  intro v h1 h2 h3 h4
  have hge : getEnum testMd "Status"
      = some ({ enum_is_flags := false, members := [("Active", "1"), ("Inactive", "2")] },
              "Status") := rfl
  show validateBinaryExpr testMd "contacts" .eq (.prop "status") (.lit v) = _
  unfold validateBinaryExpr
  simp [Expr.isProp, Expr.isLit, getAttribute_status, statusAttr, validateEnum, hge,
    getEnumInfo_testMd_none v h1 h2 h3 h4]

/-- C3 witness: the failure part applied at `Literal "Bogus"`. -/
theorem c3_enum_resolution_witness :
    validateExpr testMd "contacts" (.bin .eq (.prop "status") (.lit (.s "Bogus")))
      = .error .enumMemberNotFound :=
  c3_enum_resolution.2 (.s "Bogus") (by decide) (by decide) (by decide) (by decide)

/-- C4.  `LogicalNot` recursion: `validate_expr` on a `Not` node is exactly
the validation of its operand (errors propagate unchanged), and a `Not`
wrapping a comparison of a known EDM attribute with a type-matching literal
validates successfully. -/
theorem c4_not_recursion :
    (∀ (md : ServiceMetadata) (entity : String) (e : Expr),
       validateExpr md entity (.notE e)
         = match validateExpr md entity e with
           | .ok e2 => .ok (.notE e2)
           | .error err => .error err) ∧
    (∀ (md : ServiceMetadata) (entity pname : String) (v : LitValue)
       (attr : Attribute) (aname : String),
       getAttribute md entity pname = some (attr, aname) →
       attr.type_element = some .edm →
       valueMatchesEdm v attr.full_type = true →
       ∃ e2, validateExpr md entity (.notE (.bin .eq (.prop pname) (.lit v)))
         = .ok (.notE e2)) := by
  refine ⟨fun md entity e => rfl, ?_⟩
  intro md entity pname v attr aname hget hte hok
  have h2 : validateExpr md entity (.bin .eq (.prop pname) (.lit v))
      = .ok (.bin .eq (.prop (attributeApiName attr aname).1)
          (if attr.type = some "Guid" then .prop (litAsPropName v) else .lit v)) :=
    validateBinaryExpr_edm md entity pname v .eq attr aname hget hte hok
  refine ⟨.bin .eq (.prop (attributeApiName attr aname).1)
      (if attr.type = some "Guid" then .prop (litAsPropName v) else .lit v), ?_⟩
  have hrec : validateExpr md entity (.notE (.bin .eq (.prop pname) (.lit v)))
      = match validateExpr md entity (.bin .eq (.prop pname) (.lit v)) with
        | .ok e2 => .ok (.notE e2)
        | .error err => .error err := rfl
  rw [hrec, h2]

/-- C4 witness: the success part at the test schema's `fullname`
attribute. -/
theorem c4_not_recursion_witness :
    ∃ e2, validateExpr testMd "contacts"
        (.notE (.bin .eq (.prop "fullname") (.lit (.s "Jane")))) = .ok (.notE e2) :=
  c4_not_recursion.2 testMd "contacts" "fullname" (.s "Jane")
    { api_name := some "fullname", type := some "String", full_type := some "Edm.String"
      type_element := some .edm } "fullname" rfl rfl rfl

/-- C5 counterexample: a membership node whose subject is a known `Prop` and
whose options are `Literal`s is not validated like a comparison — it raises
the unknown-node `TypeError`. -/
theorem c5_membership_counterexample :
    validateExpr testMd "contacts" (.inE (.prop "fullname") [.lit (.s "Jane")])
      = .error .unknownNode := rfl

/-- C5 amended: `validate_expr` never applies the one-`Prop`/one-`Literal`
rule to `In_` nodes — every membership node is rejected as an unknown
expression node regardless of operand shapes; the rule is applied to the
binary comparison and string-predicate classes (both-`Prop` example). -/
theorem c5_membership_amended :
    (∀ (md : ServiceMetadata) (entity : String) (l : Expr) (opts : List Expr),
       validateExpr md entity (.inE l opts) = .error .unknownNode) ∧
    (∀ (md : ServiceMetadata) (entity : String) (op : BinOp) (n mname : String),
       validateBinaryExpr md entity op (.prop n) (.prop mname)
         = .error .bothSidesSameKind) := by
  refine ⟨fun md entity l opts => rfl, ?_⟩
  intro md entity op n mname
  unfold validateBinaryExpr
  simp [Expr.isProp]

/-- C6 counterexample: two successive `orderby_` calls on the same field with
different directions leave two entries for that field in the list. -/
theorem c6_orderby_counterexample :
    (applyOrderbyCalls [[.os "Name asc"], [.os "Name desc"]] emptyQuery).map
        (fun q => q.orderby)
      = .ok [{ field := "Name", desc := false }, { field := "Name", desc := true }] ∧
    ¬ (([{ field := "Name", desc := false }, { field := "Name", desc := true }] :
        List OrderByItem).map OrderByItem.field).Nodup :=
  ⟨rfl, by decide⟩

/-- C6 amended: within a single `orderby_` call the flattener keeps at most
one entry per field, with the later direction winning and the position fixed
at first occurrence; across calls the list is deduplicated only by the whole
`(field, desc)` pair, so a field re-added with a different direction gains a
second entry. -/
theorem c6_orderby_amended :
    (∀ (items : List OBVal) (out : List OrderByItem),
       flattenOrderby items = .ok out → (out.map OrderByItem.field).Nodup) ∧
    (flattenOrderby [.os "Name asc", .os "Name desc"]
       = .ok [{ field := "Name", desc := true }]) ∧
    (flattenOrderby [.os "B", .os "A", .os "B desc"]
       = .ok [{ field := "B", desc := true }, { field := "A", desc := false }]) ∧
    (∀ (calls : List (List OBVal)) (q2 : QueryState),
       applyOrderbyCalls calls emptyQuery = .ok q2 → q2.orderby.Nodup) :=
  ⟨flattenOrderby_fields_nodup, rfl, rfl,
   fun calls q2 h => applyOrderbyCalls_nodup calls emptyQuery List.nodup_nil q2 h⟩

/-- C6 witness: the invariants instantiated at concrete inputs. -/
theorem c6_orderby_amended_witness :
    (([{ field := "B", desc := false }, { field := "A", desc := false }] :
       List OrderByItem).map OrderByItem.field).Nodup ∧
    ({ emptyQuery with orderby := [{ field := "Name", desc := false }] } :
       QueryState).orderby.Nodup :=
  ⟨c6_orderby_amended.1 [.os "B", .os "A"] _ rfl,
   c6_orderby_amended.2.2.2 [[.os "Name"]] _ rfl⟩

/-- C7 counterexample: the orderby flattener does not accept its own output —
an `OrderByItem` input raises `TypeError`. -/
theorem c7_flatten_idempotence_counterexample :
    flattenOrderby [.os "Name"] = .ok [{ field := "Name", desc := false }] ∧
    flattenOrderby [.oitem "Name" false] = .error .typeErr := ⟨rfl, rfl⟩

/-- C7 amended: `flatten_exprs` and `flatten_fields` reproduce their own
output when fed back; `flatten_orderby` raises `TypeError` on any input whose
head is an `OrderByItem`, so re-flattening a nonempty output fails. -/
theorem c7_flatten_idempotence_amended :
    (∀ (items : List EIn) (out : List Expr),
       flattenExprs items = .ok out → flattenExprs (out.map EIn.eatom) = .ok out) ∧
    (∀ (items : List FIn) (out : List String),
       flattenFields items = .ok out → flattenFields (out.map FIn.fstr) = .ok out) ∧
    (∀ (f : String) (d : Bool) (rest : List OBVal),
       flattenOrderby (.oitem f d :: rest) = .error .typeErr) := by
  refine ⟨?_, ?_, fun f d rest => rfl⟩
  · intro items out h
    show walkEL (out.map EIn.eatom) [] = .ok out
    rw [walkEL_map_eatom]
    simp
  · intro items out h
    have hinv := walkFL_inv items [] (by simp) List.nodup_nil out h
    show walkFL (out.map FIn.fstr) [] = .ok out
    rw [walkFL_map_fstr]
    rw [foldl_addOneField out [] hinv.1 (by simpa using hinv.2)]
    simp

/-- C7 witness: the idempotence parts at concrete flattened outputs. -/
theorem c7_flatten_idempotence_witness :
    flattenExprs [EIn.eatom (.lit .none)] = .ok [.lit .none] ∧
    flattenFields [FIn.fstr "a"] = .ok ["a"] :=
  ⟨c7_flatten_idempotence_amended.1 [.eatom (.lit .none)] [.lit .none] rfl,
   c7_flatten_idempotence_amended.2.1 [.fstr "a"] ["a"] rfl⟩

/-- C8 counterexample: generating a schema-document query with a filter and a
top present raises the capability error, but its message names no facet (it
contains neither `TOP` nor `FILTER`). -/
theorem c8_capability_counterexample :
    generate Option.none
        { emptyQuery with target := some .edmx, filter := some (.prop "x"), top := some 5 } true
      = .error (.capability "EdmxTarget does not allow any query parts.") ∧
    ¬ ("TOP".toList <:+: ("EdmxTarget does not allow any query parts.").toList) ∧
    ¬ ("FILTER".toList <:+: ("EdmxTarget does not allow any query parts.").toList) :=
  ⟨rfl, by decide, by decide⟩

/-- C8 amended: any query targeting `/$metadata` with at least one facet
present fails the capability gate with the fixed message
`"EdmxTarget does not allow any query parts."`, which names no facet (facet
naming happens only in the restricted-set branch of the gate). -/
theorem c8_capability_amended :
    ∀ (q : QueryState) (md : Option ServiceMetadata) (validate : Bool),
      q.target = some .edmx → presentParts q ≠ [] →
      generate md q validate
        = .error (.capability "EdmxTarget does not allow any query parts.") := by
  intro q md validate ht hp
  simp only [generate, ht, enforce_edmx_nopart q hp]

/-- C8 witness: the amended gate at a concrete count-only query. -/
theorem c8_capability_witness :
    generate Option.none { emptyQuery with target := some .edmx, count := some false } false
      = .error (.capability "EdmxTarget does not allow any query parts.") :=
  c8_capability_amended _ Option.none false rfl (by decide)

/-- C9 counterexample: comparing two `Prop` nodes with the same name using
`==` yields an `Eq` AST node, not the boolean `True`. -/
theorem c9_structural_eq_counterexample :
    pyEq (.prop "a") (.prop "a") = .pynode (.bin .eq (.prop "a") (.prop "a")) ∧
    pyEq (.prop "a") (.prop "a") ≠ .pybool true :=
  ⟨rfl, fun h => EqResult.noConfusion h⟩

/-- C9 amended: `==` between two `Prop` nodes builds an `Eq` comparison node
(`Prop.__eq__` is overloaded for the DSL); every other node kind compares
structurally, and comparing such a node with itself returns the boolean
`True`. -/
theorem c9_structural_eq_amended :
    (∀ n mname : String,
       pyEq (.prop n) (.prop mname) = .pynode (.bin .eq (.prop n) (.prop mname))) ∧
    (∀ e : Expr, (∀ n, e ≠ .prop n) → pyEq e e = .pybool true) := by
  refine ⟨fun n mname => rfl, ?_⟩
  intro e hne
  match e with
  | .prop n => exact absurd rfl (hne n)
  | .lit v =>
    show EqResult.pybool (pyValEq v v) = _
    rw [pyValEq_refl]
  | .andE ts =>
    show EqResult.pybool (pyEqListTruthy ts ts) = _
    rw [pyEqListTruthy_refl]
  | .orE ts =>
    show EqResult.pybool (pyEqListTruthy ts ts) = _
    rw [pyEqListTruthy_refl]
  | .notE e1 =>
    show EqResult.pybool (truthy (pyEq e1 e1)) = _
    rw [truthy_pyEq_refl]
  | .bin op l r =>
    show (if op = op then EqResult.pybool (truthy (pyEq l l) && truthy (pyEq r r))
          else EqResult.pybool false) = _
    rw [if_pos rfl, truthy_pyEq_refl, truthy_pyEq_refl]
    rfl
  | .inE l opts =>
    show EqResult.pybool (truthy (pyEq l l) && pyEqListTruthy opts opts) = _
    rw [truthy_pyEq_refl, pyEqListTruthy_refl]
    rfl

/-- C9 witness: structural equality at a non-`Prop` node. -/
theorem c9_structural_eq_witness :
    pyEq (.lit (.i 0)) (.lit (.i 0)) = .pybool true :=
  c9_structural_eq_amended.2 (.lit (.i 0)) (fun _ h => Expr.noConfusion h)

/-- C10.  Literal rendering: `compile_literal` renders `None` as `null` and
bools as the bare tokens `true`/`false`; the `bool` check precedes the
numeric check, so `Literal(True)` — numeric by the `int`-subtype test — is
never rendered through the numeric branch (`str(True)`), and none of these
tokens is quoted. -/
theorem c10_literal_rendering :
    compileLiteral .none = "null" ∧
    compileLiteral (.b true) = "true" ∧
    compileLiteral (.b false) = "false" ∧
    (∀ b : Bool, LitValue.isNumeric (.b b) = true) ∧
    compileLiteral (.b true) ≠ "1" ∧
    compileLiteral (.b true) ≠ pyStr (.b true) ∧
    (∀ b : Bool, ¬ '\'' ∈ (compileLiteral (.b b)).toList) ∧
    ¬ '\'' ∈ (compileLiteral .none).toList := by
  refine ⟨rfl, rfl, rfl, fun b => rfl, by decide, by decide, ?_, by decide⟩
  intro b
  cases b <;> decide

end D365
